import Mathlib

/-
  Shallow embedding of the seccheck rule engine:
  - src/lib/checkmiscellaneous.cpp
  - src/lib/checkcomplexcopying.cpp
  - src/lib/checkinternal.h

  The token chain is embedded as an arena: a list of tokens indexed by
  position, previous/next being index minus/plus one (absent at the chain
  ends, mirroring null pointers).  Functions of the C++ code that may
  dereference a null or dangling pointer are embedded as Option-valued
  functions, none standing for a fault.
-/

namespace Seccheck

inductive TokenType where
  | eVariable
  | eNumber
  | eName
  | eString
  | eComparisonOp
  | eArithmeticalOp
  | eBitOp
  | eAssignmentOp
  | eBracket
  | eOther
  deriving DecidableEq, Repr

structure Token where
  str : String
  type : TokenType
  varId : Nat
  isUnsigned : Bool
  deriving DecidableEq, Repr

structure TokenModel where
  tokens : List Token
  deriving DecidableEq, Repr

/-- Dereference of a token pointer: the token at index i, absent when the
index is outside the arena. -/
def getTok (m : TokenModel) (i : Nat) : Option Token :=
  m.tokens.get? i

/-- tok->previous(): the chain predecessor, null at the chain start. -/
def prevIdx (i : Nat) : Option Nat :=
  if i = 0 then none else some (i - 1)

/-- tok->next(): the chain successor, null at the chain end. -/
def nextIdx (m : TokenModel) (i : Nat) : Option Nat :=
  if i + 1 < m.tokens.length then some (i + 1) else none

/-- Variable symbol fact (symboldatabase): declaration name token,
declared-type token range, reference/pointer/argument flags. -/
structure Variable where
  nameTokenIdx : Nat
  typeStartIdx : Nat
  typeEndIdx : Nat
  isReference : Bool
  isPointer : Bool
  isArgument : Bool
  deriving DecidableEq, Repr

structure Function where
  name : String
  tokenIdx : Nat
  hasBody : Bool
  argVars : List Variable
  deriving DecidableEq, Repr

inductive ScopeType where
  | eNamespace
  | eFunction
  | eTry
  | eCatch
  | eOther
  deriving DecidableEq, Repr

structure Scope where
  type : ScopeType
  className : String
  classStartIdx : Nat
  classEndIdx : Nat
  classDefIdx : Nat
  function : Option Function
  deriving DecidableEq, Repr

structure SymbolDatabase where
  functionScopes : List Scope
  scopeList : List Scope
  variableList : List (Nat × Variable)
  deriving DecidableEq, Repr

/-- tok->variable(): the resolved Variable fact of a token, null when the
token has no variable id or the id does not resolve. -/
def variableOf (db : SymbolDatabase) (t : Token) : Option Variable :=
  if t.varId = 0 then none else db.variableList.lookup t.varId

inductive Severity where
  | warning
  | performance
  deriving DecidableEq, Repr

structure Finding where
  tokenIdx : Nat
  severity : Severity
  id : String
  msg : String
  deriving DecidableEq, Repr

/-! ## checkmiscellaneous.cpp: classification predicates -/

/-- The FloatDefine set (checkmiscellaneous.cpp, class FloatDefine). -/
def floatDefStrs : List String := ["float", "double", "long double"]

/-- isFloat(const Variable*): reads nameToken()->previous()->str() with no
null check on previous(), so it faults when the declaration name token is
the first token of the chain (or dangles). -/
def isFloat (m : TokenModel) (var : Option Variable) : Option Bool :=
  match var with
  | none => some false
  | some v =>
    match getTok m v.nameTokenIdx with
    | none => none
    | some _ =>
      match prevIdx v.nameTokenIdx with
      | none => none
      | some p => (getTok m p).map (fun t => floatDefStrs.contains t.str)

/-- isTimeT(const Variable*): same shape as isFloat, comparing the token
before the declaration name with the text time_t. -/
def isTimeT (m : TokenModel) (var : Option Variable) : Option Bool :=
  match var with
  | none => some false
  | some v =>
    match getTok m v.nameTokenIdx with
    | none => none
    | some _ =>
      match prevIdx v.nameTokenIdx with
      | none => none
      | some p => (getTok m p).map (fun t => t.str == "time_t")

/-- isUnsigned(const Variable*): reads typeEndToken()->isUnsigned(). -/
def isUnsigned (m : TokenModel) (var : Option Variable) : Option Bool :=
  match var with
  | none => some false
  | some v => (getTok m v.typeEndIdx).map (fun t => t.isUnsigned)

/-- isFloatVariable(const Token*): null token yields false. -/
def isFloatVariable (m : TokenModel) (db : SymbolDatabase) (oi : Option Nat) :
    Option Bool :=
  match oi with
  | none => some false
  | some i =>
    match getTok m i with
    | none => none
    | some t =>
      if t.type = TokenType.eVariable then isFloat m (variableOf db t)
      else some false

/-- isTimeTVariable(const Token*). -/
def isTimeTVariable (m : TokenModel) (db : SymbolDatabase) (oi : Option Nat) :
    Option Bool :=
  match oi with
  | none => some false
  | some i =>
    match getTok m i with
    | none => none
    | some t =>
      if t.type = TokenType.eVariable then isTimeT m (variableOf db t)
      else some false

/-- isUnsignedVariable(const Token*). -/
def isUnsignedVariable (m : TokenModel) (db : SymbolDatabase) (oi : Option Nat) :
    Option Bool :=
  match oi with
  | none => some false
  | some i =>
    match getTok m i with
    | none => none
    | some t =>
      if t.type = TokenType.eVariable then isUnsigned m (variableOf db t)
      else some false

/-- isSignedChar(const Token*): a variable token whose variable is not
unsigned (unresolved variables count as not unsigned). -/
def isSignedChar (m : TokenModel) (db : SymbolDatabase) (oi : Option Nat) :
    Option Bool :=
  match oi with
  | none => some false
  | some i =>
    match getTok m i with
    | none => none
    | some t =>
      if t.type = TokenType.eVariable then
        (isUnsigned m (variableOf db t)).map (fun b => !b)
      else some false

/-- isNumberOrVariable(const Token*). -/
def isNumberOrVariable (t : Token) : Bool :=
  t.type == TokenType.eVariable || t.type == TokenType.eNumber

/-- isBitOperatorOnNoUnsignedVariable(const Token*): null token or null
neighbor yields false; then the token must be a bitwise operator with both
neighbors number-or-variable tokens; finally true when at least one side is
not an unsigned variable (short-circuit as in the source). -/
def isBitOperatorOnNoUnsignedVariable (m : TokenModel) (db : SymbolDatabase)
    (oi : Option Nat) : Option Bool :=
  match oi with
  | none => some false
  | some i =>
    match getTok m i with
    | none => none
    | some t =>
      match prevIdx i, nextIdx m i with
      | some p, some n =>
        if t.type ≠ TokenType.eBitOp then some false
        else
          match getTok m p, getTok m n with
          | some tp, some tn =>
            if !isNumberOrVariable tp || !isNumberOrVariable tn then some false
            else do
              let up ← isUnsignedVariable m db (some p)
              if !up then pure true
              else do
                let un ← isUnsignedVariable m db (some n)
                pure (!un)
          | _, _ => none
      | _, _ => some false

/-- isFloatComparison(const Token*): as in the source, the neighbor on the
other side of a float variable is dereferenced without a null check, so the
predicate faults when that neighbor is absent. -/
def isFloatComparison (m : TokenModel) (db : SymbolDatabase) (i : Nat) :
    Option Bool :=
  match getTok m i with
  | none => none
  | some _ => do
    let prev := prevIdx i
    let next := nextIdx m i
    let pf ← isFloatVariable m db prev
    if pf then
      match next with
      | none => none
      | some n => do
        let tn ← getTok m n
        if tn.type = TokenType.eNumber then pure true
        else isFloatVariable m db next
    else do
      let nf ← isFloatVariable m db next
      if nf then
        match prev with
        | none => none
        | some p => do
          let tp ← getTok m p
          if tp.type = TokenType.eNumber then pure true
          else isFloatVariable m db prev
      else pure false

/-! ## Pattern matching (Token::Match / Token::simpleMatch) -/

/-- The 16 ctype classification/conversion names of CTYPE_CHAR_FUNCS. -/
def ctypeFuncNames : List String :=
  ["isalnum", "isalpha", "isascii", "isblank", "iscntrl", "isdigit",
   "isgraph", "islower", "isprint", "ispunct", "isspace", "isupper",
   "isxdigit", "toascii", "toupper", "tolower"]

/-- Modelled from the spec: Token::simpleMatch is not under src; per the
spec, exact matching consumes one literal atom per token, short-circuits on
the first mismatch and never matches past the end of the token stream. -/
def matchStrs (m : TokenModel) (i : Nat) : List String → Bool
  | [] => true
  | s :: rest =>
    match getTok m i with
    | none => false
    | some t => t.str == s && matchStrs m (i + 1) rest

/-- Modelled from the spec: Token::Match is not under src; per the spec a
pattern atom is an alternation of literal names or a typed wildcard, each
consuming exactly one token.  This is the four-atom ctype pattern of
runChecks: an alternation of the 16 ctype names, the literal opening
parenthesis, a variable-token wildcard, the literal closing parenthesis. -/
def matchCtypeCall (m : TokenModel) (i : Nat) : Bool :=
  match getTok m i, getTok m (i + 1), getTok m (i + 2), getTok m (i + 3) with
  | some t0, some t1, some t2, some t3 =>
    ctypeFuncNames.contains t0.str && t1.str == "(" &&
      t2.type == TokenType.eVariable && t3.str == ")"
  | _, _, _, _ => false

/-! ## checkmiscellaneous.cpp: reported findings -/

def floatEqualsFinding (i : Nat) : Finding :=
  ⟨i, Severity.warning, "FloatEqualsError",
   "Comparing two float variables is improper.\nShould avoid compare two float variables directly. Maybe you can compare with an epsilon value."⟩

def timetOperFinding (i : Nat) : Finding :=
  ⟨i, Severity.warning, "time_tArithmeticError",
   "There is no safe way to manually perform arithmetic on the time_t type.\nThe time_t values should not be modified directly."⟩

def signedBitOperFinding (i : Nat) : Finding :=
  ⟨i, Severity.warning, "SignedBitoperError",
   "Bitwise operators should only be used with unsigned integer operands.\nBitwise operators should only be used with unsigned integer operands, as the results of some bitwise operations on signed integers is implementation defined."⟩

def signedCharFinding (i : Nat) : Finding :=
  ⟨i, Severity.warning, "SignedCharError",
   "Arguments to character handling functions must be representable as an unsigned char.\nIn all cases the argument is an int, the value of which shall be representable as an unsigned char or shall equal the value of the macro EOF."⟩

def modifyStdFinding (i : Nat) : Finding :=
  ⟨i, Severity.warning, "ModifyStdNamespaceError",
   "Do not modify the standard namespaces.\nIt is undefined behavior to introduce new declarations in namespace std, except under special circumstances."⟩

def returnErrnoFinding (i : Nat) : Finding :=
  ⟨i, Severity.warning, "FunctionReturnErrnoError",
   "Functions that return errno should change to a return type of errno_t.\nTR 24731-1 introduces the new type errno_t instead."⟩

def floatLoopFinding (i : Nat) : Finding :=
  ⟨i, Severity.warning, "FloatNumberAsLoopCounterError",
   "Do not use floating-point variables as loop counters.\nDifferent implementations have different precision limitations, and to keep code portable, floating-point variables should not be used as loop counters."⟩

/-! ## checkmiscellaneous.cpp: the per-token rule chain of runChecks -/

/-- The if/else-if chain of CheckMiscellaneous::runChecks applied to the
token at index i (which the scan has already dereferenced to t).  Returns
the findings the chain reports at this position, or none on a fault. -/
def tokenRuleFindings (m : TokenModel) (db : SymbolDatabase) (i : Nat)
    (t : Token) : Option (List Finding) :=
  if t.type = TokenType.eComparisonOp then
    if t.str ≠ "==" then some []
    else do
      let b ← isFloatComparison m db i
      pure (if b then [floatEqualsFinding i] else [])
  else if t.type = TokenType.eArithmeticalOp then do
    let bn ← isTimeTVariable m db (nextIdx m i)
    if bn then pure [timetOperFinding i]
    else do
      let bp ← isTimeTVariable m db (prevIdx i)
      pure (if bp then [timetOperFinding i] else [])
  else do
    let bb ← isBitOperatorOnNoUnsignedVariable m db (some i)
    if bb then pure [signedBitOperFinding i]
    else if matchCtypeCall m i then do
      let sc ← isSignedChar m db (some (i + 2))
      pure (if sc then [signedCharFinding (i + 2)] else [])
    else if matchStrs m i ["return", "errno", ";"] then
      pure [returnErrnoFinding i]
    else if matchStrs m i ["for", "(", "double"] ||
        matchStrs m i ["for", "(", "float"] then
      pure [floatLoopFinding i]
    else
      pure []

/-- The indices visited by the loop from classStart while the token pointer
is non-null and differs from classEnd: positions start, start+1, ... inside
the arena, cut at the first occurrence of stop. -/
def scopeTokenIdxs (m : TokenModel) (start stop : Nat) : List Nat :=
  ((List.range m.tokens.length).drop start).takeWhile (fun j => j ≠ stop)

/-- The token loop body over a list of positions, appending each token's
findings to the sink (reportError appends to the error logger). -/
def scanIdxs (m : TokenModel) (db : SymbolDatabase) :
    List Nat → List Finding → Option (List Finding)
  | [], acc => some acc
  | j :: rest, acc =>
    match getTok m j with
    | none => some acc
    | some t => do
      let fs ← tokenRuleFindings m db j t
      scanIdxs m db rest (acc ++ fs)

/-- One function scope's token loop of CheckMiscellaneous::runChecks. -/
def scanScope (m : TokenModel) (db : SymbolDatabase) (s : Scope)
    (acc : List Finding) : Option (List Finding) :=
  scanIdxs m db (scopeTokenIdxs m s.classStartIdx s.classEndIdx) acc

/-- The loop over all function scopes. -/
def runMiscScopeLoop (m : TokenModel) (db : SymbolDatabase) :
    List Scope → List Finding → Option (List Finding)
  | [], acc => some acc
  | s :: rest, acc => do
    let acc2 ← scanScope m db s acc
    runMiscScopeLoop m db rest acc2

/-- The scopeList loop of runChecks: one ModifyStdNamespaceError per
namespace scope named std, anchored at the scope's classDef token. -/
def stdNamespaceLoop : List Scope → List Finding → List Finding
  | [], acc => acc
  | s :: rest, acc =>
    if s.type = ScopeType.eNamespace ∧ s.className = "std" then
      stdNamespaceLoop rest (acc ++ [modifyStdFinding s.classDefIdx])
    else stdNamespaceLoop rest acc

/-- CheckMiscellaneous::runChecks with the sink passed explicitly: the
function-scope token loop first, then the std-namespace scope loop. -/
def runChecksFrom (m : TokenModel) (db : SymbolDatabase)
    (acc : List Finding) : Option (List Finding) := do
  let a ← runMiscScopeLoop m db db.functionScopes acc
  pure (stdNamespaceLoop db.scopeList a)

/-- CheckMiscellaneous::runChecks starting from an empty sink. -/
def runChecks (m : TokenModel) (db : SymbolDatabase) :
    Option (List Finding) :=
  runChecksFrom m db []

/-! ## checkcomplexcopying.cpp -/

/-- The 16 container names of class ComplexContainers. -/
def complexContainerNames : List String :=
  ["array", "vector", "deque", "list", "forward_list",
   "stack", "queue", "priority_queue",
   "set", "map", "multimap", "multiset",
   "unordered_set", "unordered_map", "unordered_multimap",
   "unordered_multiset"]

/-- isComplexContainer(const std::string&). -/
def isComplexContainer (s : String) : Bool :=
  complexContainerNames.contains s

/-- isRefOrPointer(const Variable&). -/
def isRefOrPointer (v : Variable) : Bool :=
  v.isReference || v.isPointer

/-- The finding reported by checkComplexParametersAsArgument, anchored at
the function's token. -/
def complexCopyFinding (func : Function) : Finding :=
  ⟨func.tokenIdx, Severity.performance, "complexObjectCopying",
   "Complex objects copying in Function " ++
     (func.name ++
      " may slow down system performance.\nPlease use pointer or reference instead.")⟩

/-- The inner type-token loop of checkComplexParametersAsArgument: from
typeStartToken while the pointer differs from typeEndToken (the end token
itself is never examined), testing each token's text against the container
set; the loop has no null check, so running off the chain end faults. -/
def scanTypeRangeAux (m : TokenModel) (stop : Nat) :
    Nat → Nat → Option Bool
  | i, fuel =>
    if i = stop then some false
    else
      match fuel with
      | 0 => none
      | fuel' + 1 =>
        match getTok m i with
        | none => none
        | some t =>
          if isComplexContainer t.str then some true
          else scanTypeRangeAux m stop (i + 1) fuel'

def scanTypeRange (m : TokenModel) (i stop : Nat) : Option Bool :=
  scanTypeRangeAux m stop i (m.tokens.length - i)

/-- The texts of the tokens at positions i, i+1, ... strictly before stop
(cut at the arena end), the range the type-token loop walks. -/
def typeRangeStrsAux (m : TokenModel) (stop : Nat) :
    Nat → Nat → List String
  | i, fuel =>
    if i = stop then []
    else
      match fuel with
      | 0 => []
      | fuel' + 1 =>
        match getTok m i with
        | none => []
        | some t => t.str :: typeRangeStrsAux m stop (i + 1) fuel'

def typeRangeStrs (m : TokenModel) (i stop : Nat) : List String :=
  typeRangeStrsAux m stop i (m.tokens.length - i)

/-- The argument loop of checkComplexParametersAsArgument: skip reference
and pointer arguments, scan the others' type ranges, report at most once
per argument. -/
def argLoop (m : TokenModel) (func : Function) :
    List Variable → Option (List Finding)
  | [] => some []
  | v :: rest =>
    if isRefOrPointer v then argLoop m func rest
    else do
      let found ← scanTypeRange m v.typeStartIdx v.typeEndIdx
      let fs ← argLoop m func rest
      pure ((if found then [complexCopyFinding func] else []) ++ fs)

/-- CheckComplexCopying::checkComplexParametersAsArgument. -/
def checkComplexParametersAsArgument (m : TokenModel) (scope : Scope) :
    Option (List Finding) :=
  match scope.function with
  | none => some []
  | some func =>
    if !func.hasBody then some []
    else argLoop m func func.argVars

/-- The function-scope loop of CheckComplexCopying::checkComplexParameters:
per scope, the argument check; the token loop that follows in the source
only skips non-assignment tokens and emits nothing. -/
def checkComplexScopeLoop (m : TokenModel) :
    List Scope → Option (List Finding)
  | [] => some []
  | s :: rest => do
    let a ← checkComplexParametersAsArgument m s
    let b ← checkComplexScopeLoop m rest
    pure (a ++ b)

/-- CheckComplexCopying::checkComplexParameters. -/
def checkComplexParameters (m : TokenModel) (db : SymbolDatabase) :
    Option (List Finding) :=
  checkComplexScopeLoop m db.functionScopes

/-! ## checkinternal.h -/

structure Settings where
  enabled : List String
  deriving DecidableEq, Repr

/-- Settings::isEnabled. -/
def Settings.isEnabled (s : Settings) (cat : String) : Bool :=
  s.enabled.contains cat

/-- Modelled from the spec: the bodies of the five CheckInternal
self-checks (checkTokenMatchPatterns, checkTokenSimpleMatchPatterns,
checkMissingPercentCharacter, checkUnknownPattern,
checkRedundantNextPrevious) are not under src, only their declarations in
checkinternal.h; each is modelled abstractly by the list of findings it
would emit on the analyzed unit. -/
structure InternalChecks where
  tokenMatchPatterns : List Finding
  tokenSimpleMatchPatterns : List Finding
  missingPercentCharacter : List Finding
  unknownPattern : List Finding
  redundantNextPrevious : List Finding

/-- CheckInternal::runSimplifiedChecks: return immediately unless the
internal category is enabled, otherwise invoke the five self-checks in
declaration order. -/
def runSimplifiedChecks (settings : Settings) (c : InternalChecks) :
    List Finding :=
  if !settings.isEnabled "internal" then []
  else
    c.tokenMatchPatterns ++ c.tokenSimpleMatchPatterns ++
      c.missingPercentCharacter ++ c.unknownPattern ++
      c.redundantNextPrevious

/-! ## Helper lemmas -/

lemma getTok_lt {m : TokenModel} {i : Nat} {t : Token}
    (h : getTok m i = some t) : i < m.tokens.length := by
  by_contra hc
  rw [getTok, List.get?_eq_getElem?,
    List.getElem?_eq_none (Nat.le_of_not_lt hc)] at h
  exact Option.noConfusion h

lemma getTok_of_lt {m : TokenModel} {i : Nat}
    (h : i < m.tokens.length) : ∃ t, getTok m i = some t := by
  rw [getTok, List.get?_eq_getElem?]
  exact ⟨m.tokens[i], List.getElem?_eq_getElem h⟩

/-- With enough fuel (one unit per token before stop) the type-token loop
terminates cleanly and decides whether any visited token's text is a
container name. -/
lemma scanTypeRangeAux_spec (m : TokenModel) (stop : Nat) :
    ∀ fuel i, stop - i ≤ fuel → i ≤ stop → stop ≤ m.tokens.length →
    scanTypeRangeAux m stop i fuel =
      some ((typeRangeStrsAux m stop i fuel).any isComplexContainer) := by
  intro fuel
  induction fuel with
  | zero =>
    intro i hk hi _
    have he : i = stop := by omega
    subst he
    rw [scanTypeRangeAux, typeRangeStrsAux]
    simp
  | succ k ih =>
    intro i hk hi hstop
    by_cases he : i = stop
    · subst he
      rw [scanTypeRangeAux, typeRangeStrsAux]
      simp
    · have hil : i < m.tokens.length := by omega
      obtain ⟨t, ht⟩ := getTok_of_lt hil
      rw [scanTypeRangeAux, typeRangeStrsAux]
      rw [if_neg he, if_neg he, ht]
      by_cases hc : isComplexContainer t.str
      · simp [hc]
      · simp only [hc, Bool.false_eq_true, ite_false, List.any_cons,
          Bool.false_or]
        exact ih (i + 1) (by omega) (by omega) hstop

/-- Under a well-formed range the type-token loop terminates cleanly and
decides whether any visited token's text is a container name. -/
lemma scanTypeRange_spec (m : TokenModel) (i stop : Nat)
    (hi : i ≤ stop) (hstop : stop ≤ m.tokens.length) :
    scanTypeRange m i stop =
      some ((typeRangeStrs m i stop).any isComplexContainer) := by
  rw [scanTypeRange, typeRangeStrs]
  exact scanTypeRangeAux_spec m stop (m.tokens.length - i) i (by omega)
    hi hstop

/-- The argument loop reports the complex-copy finding exactly once per
non-reference, non-pointer argument whose scanned type range holds a
container name. -/
lemma argLoop_spec (m : TokenModel) (func : Function) :
    ∀ vars : List Variable,
    (∀ v ∈ vars, v.typeStartIdx ≤ v.typeEndIdx ∧
      v.typeEndIdx ≤ m.tokens.length) →
    argLoop m func vars =
      some ((vars.filter (fun v => !isRefOrPointer v &&
          (typeRangeStrs m v.typeStartIdx v.typeEndIdx).any
            isComplexContainer)).map
        (fun _ => complexCopyFinding func)) := by
  intro vars
  induction vars with
  | nil => intro _; rfl
  | cons v rest ih =>
    intro hwf
    have hv := hwf v (by simp)
    have hrest : ∀ w ∈ rest, w.typeStartIdx ≤ w.typeEndIdx ∧
        w.typeEndIdx ≤ m.tokens.length := by
      intro w hw
      exact hwf w (by simp [hw])
    rw [argLoop]
    by_cases hrp : isRefOrPointer v
    · rw [if_pos hrp, ih hrest]
      simp [List.filter_cons, hrp]
    · rw [if_neg hrp]
      rw [scanTypeRange_spec m v.typeStartIdx v.typeEndIdx hv.1 hv.2]
      simp only [Option.bind_eq_bind, Option.some_bind, ih hrest]
      by_cases hc : (typeRangeStrs m v.typeStartIdx v.typeEndIdx).any
          isComplexContainer
      · simp [List.filter_cons, hrp, hc]
      · simp [List.filter_cons, hrp, hc]

/-! ## Claim C1: container-copy findings per argument -/

/-- A single-token declared type whose only type token (the terminal one)
is a container name: the source loop, which stops before typeEndToken,
never examines it. -/
def mC1x : TokenModel :=
  ⟨[⟨"vector", TokenType.eName, 0, false⟩,
    ⟨"p", TokenType.eVariable, 1, false⟩,
    ⟨"\x7b", TokenType.eBracket, 0, false⟩,
    ⟨"\x7d", TokenType.eBracket, 0, false⟩]⟩

def vC1x : Variable := ⟨1, 0, 0, false, false, true⟩

def funcC1x : Function := ⟨"foo", 0, true, [vC1x]⟩

def scopeC1x : Scope := ⟨ScopeType.eFunction, "", 2, 3, 0, some funcC1x⟩

/-- Claim C1, counterexample: a by-value argument whose declared-type token
range (typeStartToken up to and including typeEndToken) holds the container
name vector — the name sits at the terminal type token — yet the check
emits no Finding, because the source scans the range excluding
typeEndToken.  The claim as stated demands exactly one Finding here. -/
theorem complexCopyClaimCounterexample :
    scopeC1x.function = some funcC1x ∧
    funcC1x.hasBody = true ∧
    funcC1x.argVars = [vC1x] ∧
    vC1x.isReference = false ∧
    vC1x.isPointer = false ∧
    (typeRangeStrs mC1x vC1x.typeStartIdx (vC1x.typeEndIdx + 1)).any
      isComplexContainer = true ∧
    checkComplexParametersAsArgument mC1x scopeC1x = some [] := by
  refine ⟨rfl, rfl, rfl, rfl, rfl, by decide, by decide⟩

/-- Claim C1 (amended): for every analyzed function scope whose Function
exists and has a body, and for every argument Variable of that function
that is neither a reference nor a pointer and whose declared-type token
range EXCLUDING ITS TERMINAL TYPE TOKEN contains at least one of the 16
standard container names, the check emits exactly one Finding for that
argument — severity performance, anchored at the function's token, message
beginning with Complex objects copying in Function followed by the name —
regardless of how many qualifying names appear; reference/pointer
arguments and arguments without a qualifying name in that scanned range
produce no Finding. -/
theorem complexCopyPerArgument (m : TokenModel) (scope : Scope)
    (func : Function)
    (hf : scope.function = some func) (hb : func.hasBody = true)
    (hwf : ∀ v ∈ func.argVars, v.typeStartIdx ≤ v.typeEndIdx ∧
      v.typeEndIdx ≤ m.tokens.length) :
    checkComplexParametersAsArgument m scope =
      some ((func.argVars.filter (fun v => !isRefOrPointer v &&
          (typeRangeStrs m v.typeStartIdx v.typeEndIdx).any
            isComplexContainer)).map (fun _ => complexCopyFinding func)) ∧
    (complexCopyFinding func).severity = Severity.performance ∧
    (complexCopyFinding func).tokenIdx = func.tokenIdx ∧
    ∃ rest, (complexCopyFinding func).msg =
      "Complex objects copying in Function " ++ (func.name ++ rest) := by
  refine ⟨?_, rfl, rfl, ⟨_, rfl⟩⟩
  rw [checkComplexParametersAsArgument]
  simp only [hf, hb, Bool.not_true, Bool.false_eq_true, if_false]
  exact argLoop_spec m func func.argVars hwf

/-- A by-value argument of declared type vector < int > followed by its
name: the scanned range holds the container name. -/
def mC1w : TokenModel :=
  ⟨[⟨"vector", TokenType.eName, 0, false⟩,
    ⟨"<", TokenType.eOther, 0, false⟩,
    ⟨"int", TokenType.eName, 0, false⟩,
    ⟨">", TokenType.eOther, 0, false⟩,
    ⟨"p", TokenType.eVariable, 1, false⟩]⟩

def vC1w : Variable := ⟨4, 0, 3, false, false, true⟩

def funcC1w : Function := ⟨"foo", 0, true, [vC1w]⟩

def scopeC1w : Scope := ⟨ScopeType.eFunction, "", 5, 6, 0, some funcC1w⟩

/-- Claim C1, witness: at the concrete function above the check emits
exactly the one performance Finding. -/
theorem complexCopyPerArgumentWitness :
    checkComplexParametersAsArgument mC1w scopeC1w =
      some [complexCopyFinding funcC1w] := by
  have h := (complexCopyPerArgument mC1w scopeC1w funcC1w rfl rfl
    (by
      intro v hv
      have hv2 : v = vC1w := by simpa [funcC1w] using hv
      subst hv2
      exact ⟨by decide, by decide⟩)).1
  exact h.trans (by decide)

/-! ## Claim C2: the float-equality rule -/

/-- Value of isFloatComparison when both neighbors exist and their float
classification succeeds. -/
lemma isFloatComparison_value (m : TokenModel) (db : SymbolDatabase)
    (i p n : Nat) (t tp tn : Token) (bp bn : Bool)
    (ht : getTok m i = some t)
    (hp : prevIdx i = some p) (hn : nextIdx m i = some n)
    (htp : getTok m p = some tp) (htn : getTok m n = some tn)
    (hbp : isFloatVariable m db (some p) = some bp)
    (hbn : isFloatVariable m db (some n) = some bn) :
    isFloatComparison m db i =
      some ((bp && (bn || tn.type == TokenType.eNumber)) ||
        (bn && (bp || tp.type == TokenType.eNumber))) := by
  rw [isFloatComparison]
  cases bp <;> cases bn <;>
    by_cases hc1 : tp.type = TokenType.eNumber <;>
    by_cases hc2 : tn.type = TokenType.eNumber <;>
    simp [ht, hp, hn, hbp, hbn, htp, htn, hc1, hc2, pure]

/-- Claim C2: at a comparison-operator token with text the double equals
sign, with both neighbors present and float classification succeeding, the
rule chain emits exactly one warning Finding at that token exactly when one
operand is a float-typed variable and the other is a float-typed variable
or a numeric literal; when neither operand is a float-typed variable
nothing is emitted at that token. -/
theorem floatEqualityRule (m : TokenModel) (db : SymbolDatabase)
    (i p n : Nat) (t tp tn : Token) (bp bn : Bool)
    (ht : getTok m i = some t)
    (htype : t.type = TokenType.eComparisonOp)
    (hstr : t.str = "==")
    (hp : prevIdx i = some p) (hn : nextIdx m i = some n)
    (htp : getTok m p = some tp) (htn : getTok m n = some tn)
    (hbp : isFloatVariable m db (some p) = some bp)
    (hbn : isFloatVariable m db (some n) = some bn) :
    tokenRuleFindings m db i t =
      some (if (bp && (bn || tn.type == TokenType.eNumber)) ||
          (bn && (bp || tp.type == TokenType.eNumber))
        then [floatEqualsFinding i] else []) ∧
    (floatEqualsFinding i).severity = Severity.warning ∧
    (floatEqualsFinding i).tokenIdx = i := by
  refine ⟨?_, rfl, rfl⟩
  rw [tokenRuleFindings, if_pos htype, if_neg (by simp [hstr])]
  rw [isFloatComparison_value m db i p n t tp tn bp bn ht hp hn htp htn
    hbp hbn]
  simp only [Option.bind_eq_bind, Option.some_bind]
  split <;> simp

/-- float x; then the comparison x equals the literal 3.14. -/
def mC2w : TokenModel :=
  ⟨[⟨"float", TokenType.eName, 0, false⟩,
    ⟨"x", TokenType.eVariable, 1, false⟩,
    ⟨"==", TokenType.eComparisonOp, 0, false⟩,
    ⟨"3.14", TokenType.eNumber, 0, false⟩]⟩

def dbC2w : SymbolDatabase :=
  ⟨[], [], [(1, ⟨1, 0, 0, false, false, false⟩)]⟩

/-- Claim C2, witness: the float-against-literal comparison produces the
one warning Finding, anchored at the comparison token. -/
theorem floatEqualityRuleWitness :
    tokenRuleFindings mC2w dbC2w 2 ⟨"==", TokenType.eComparisonOp, 0, false⟩ =
      some [floatEqualsFinding 2] := by
  have h := (floatEqualityRule mC2w dbC2w 2 1 3
    ⟨"==", TokenType.eComparisonOp, 0, false⟩
    ⟨"x", TokenType.eVariable, 1, false⟩
    ⟨"3.14", TokenType.eNumber, 0, false⟩
    true false rfl rfl rfl rfl rfl rfl rfl (by decide) (by decide)).1
  exact h.trans (by decide)

/-! ## Claim C3: totality of the predicates on absent inputs -/

/-- A comparison token at the chain start whose next token is a float
variable: x declared float elsewhere in the chain, used right after a
leading comparison operator. -/
def mC3x : TokenModel :=
  ⟨[⟨"==", TokenType.eComparisonOp, 0, false⟩,
    ⟨"x", TokenType.eVariable, 1, false⟩,
    ⟨"float", TokenType.eName, 0, false⟩,
    ⟨"x", TokenType.eVariable, 1, false⟩,
    ⟨"\x7d", TokenType.eBracket, 0, false⟩]⟩

def dbC3x : SymbolDatabase :=
  ⟨[⟨ScopeType.eFunction, "", 0, 4, 0, none⟩], [],
   [(1, ⟨3, 2, 2, false, false, false⟩)]⟩

/-- A lone unresolved variable token. -/
def mC3u : TokenModel := ⟨[⟨"c", TokenType.eVariable, 7, false⟩]⟩

def dbC3u : SymbolDatabase := ⟨[], [], []⟩

/-- Claim C3, counterexample: the float-equality predicate does not treat
an absent neighbor as predicate-false — with a null previous token and a
float-variable next token it faults (null dereference), and the scan over
the scope faults with it instead of proceeding; moreover the ctype
signed-char predicate returns true, not false, on an unresolved variable
token. -/
theorem predicateTotalityCounterexample :
    prevIdx 0 = none ∧
    isFloatComparison mC3x dbC3x 0 = none ∧
    runChecks mC3x dbC3x = none ∧
    variableOf dbC3u ⟨"c", TokenType.eVariable, 7, false⟩ = none ∧
    isSignedChar mC3u dbC3u (some 0) = some true := by
  refine ⟨rfl, by decide, by decide, by decide, by decide⟩

/-- Claim C3 (amended): the rule predicates tolerate a null token pointer,
a null neighbor, and an unresolved variable by returning false, with two
exceptions forced by the counterexample: the float-equality predicate
faults exactly when one neighbor is absent while the other side is a
float-typed variable — it is total, returning false, when both neighbors
are absent and also when one neighbor is absent and the other side does
not classify as a float variable — and the ctype signed-char predicate
answers true — not false — on an unresolved variable token. -/
theorem predicateAbsentInputs (m : TokenModel) (db : SymbolDatabase)
    (i : Nat) (t : Token) (ht : getTok m i = some t) :
    isFloatVariable m db none = some false ∧
    isTimeTVariable m db none = some false ∧
    isUnsignedVariable m db none = some false ∧
    isSignedChar m db none = some false ∧
    isBitOperatorOnNoUnsignedVariable m db none = some false ∧
    (prevIdx i = none →
      isBitOperatorOnNoUnsignedVariable m db (some i) = some false) ∧
    (nextIdx m i = none →
      isBitOperatorOnNoUnsignedVariable m db (some i) = some false) ∧
    (prevIdx i = none → nextIdx m i = none →
      isFloatComparison m db i = some false) ∧
    (variableOf db t = none →
      isFloatVariable m db (some i) = some false ∧
      isTimeTVariable m db (some i) = some false ∧
      isUnsignedVariable m db (some i) = some false ∧
      isSignedChar m db (some i) = some (t.type == TokenType.eVariable)) ∧
    (prevIdx i = none →
      isFloatVariable m db (nextIdx m i) = some false →
      isFloatComparison m db i = some false) ∧
    (nextIdx m i = none →
      isFloatVariable m db (prevIdx i) = some false →
      isFloatComparison m db i = some false) := by
  refine ⟨rfl, rfl, rfl, rfl, rfl, ?_, ?_, ?_, ?_, ?_, ?_⟩
  · intro h
    rw [isBitOperatorOnNoUnsignedVariable]
    simp [ht, h]
  · intro h
    rw [isBitOperatorOnNoUnsignedVariable]
    rcases hp0 : prevIdx i with _ | p <;> simp [ht, h]
  · intro h1 h2
    rw [isFloatComparison]
    simp [ht, h1, h2, isFloatVariable]
  · intro hv
    refine ⟨?_, ?_, ?_, ?_⟩
    · by_cases hT : t.type = TokenType.eVariable <;>
        simp [isFloatVariable, isFloat, ht, hv, hT]
    · by_cases hT : t.type = TokenType.eVariable <;>
        simp [isTimeTVariable, isTimeT, ht, hv, hT]
    · by_cases hT : t.type = TokenType.eVariable <;>
        simp [isUnsignedVariable, isUnsigned, ht, hv, hT]
    · by_cases hT : t.type = TokenType.eVariable <;>
        simp [isSignedChar, isUnsigned, ht, hv, hT]
  · intro h1 h2
    rw [isFloatComparison]
    simp only [ht, h1, h2]
    simp [isFloatVariable]
  · intro h1 h2
    rw [isFloatComparison]
    simp only [ht, h1, h2]
    simp [isFloatVariable]

/-- A lone unresolved variable token at the chain start and end. -/
def mC3w : TokenModel := ⟨[⟨"x", TokenType.eVariable, 5, false⟩]⟩

def dbC3w : SymbolDatabase := ⟨[], [], []⟩

/-- A chain-initial comparison whose next token is a variable of a
non-float declared type: y declared int elsewhere in the chain. -/
def mC3y : TokenModel :=
  ⟨[⟨"==", TokenType.eComparisonOp, 0, false⟩,
    ⟨"y", TokenType.eVariable, 2, false⟩,
    ⟨"int", TokenType.eName, 0, false⟩,
    ⟨"y", TokenType.eVariable, 2, false⟩]⟩

def dbC3y : SymbolDatabase :=
  ⟨[], [], [(2, ⟨3, 2, 2, false, false, false⟩)]⟩

/-- Claim C3, witness: at a single-token chain both neighbors are absent
and the predicates answer false; at a chain-initial comparison whose
present neighbor is not a float variable the float-equality predicate is
total and answers false. -/
theorem predicateAbsentInputsWitness :
    isBitOperatorOnNoUnsignedVariable mC3w dbC3w (some 0) = some false ∧
    isFloatComparison mC3w dbC3w 0 = some false ∧
    isUnsignedVariable mC3w dbC3w (some 0) = some false ∧
    isFloatComparison mC3y dbC3y 0 = some false := by
  have h := predicateAbsentInputs mC3w dbC3w 0
    ⟨"x", TokenType.eVariable, 5, false⟩ rfl
  have hy := predicateAbsentInputs mC3y dbC3y 0
    ⟨"==", TokenType.eComparisonOp, 0, false⟩ rfl
  exact ⟨h.2.2.2.2.2.1 rfl, h.2.2.2.2.2.2.2.1 rfl rfl,
    (h.2.2.2.2.2.2.2.2.1 rfl).2.2.1,
    hy.2.2.2.2.2.2.2.2.2.1 rfl (by decide)⟩

/-! ## Claim C4: the signed-bitwise rule -/

/-- Value of the bit-operator predicate at a bitwise token whose neighbors
are number-or-variable tokens and whose unsigned classification succeeds. -/
lemma isBitOp_value (m : TokenModel) (db : SymbolDatabase)
    (i p n : Nat) (t tp tn : Token) (up un : Bool)
    (ht : getTok m i = some t)
    (htype : t.type = TokenType.eBitOp)
    (hp : prevIdx i = some p) (hn : nextIdx m i = some n)
    (htp : getTok m p = some tp) (htn : getTok m n = some tn)
    (hnvp : isNumberOrVariable tp = true)
    (hnvn : isNumberOrVariable tn = true)
    (hup : isUnsignedVariable m db (some p) = some up)
    (hun : isUnsignedVariable m db (some n) = some un) :
    isBitOperatorOnNoUnsignedVariable m db (some i) = some (!up || !un) := by
  rw [isBitOperatorOnNoUnsignedVariable]
  cases up <;> simp [ht, htype, hp, hn, htp, htn, hnvp, hnvn, hup, hun, pure]

/-- An unsigned-variable classification that succeeds answers false on a
number literal and on an unresolved variable. -/
lemma isUnsignedVariable_failsClosed (m : TokenModel) (db : SymbolDatabase)
    (j : Nat) (tj : Token) (b : Bool)
    (htj : getTok m j = some tj)
    (hb : isUnsignedVariable m db (some j) = some b) :
    (tj.type = TokenType.eNumber → b = false) ∧
    (variableOf db tj = none → b = false) := by
  rw [isUnsignedVariable] at hb
  constructor
  · intro hT
    rw [htj] at hb
    simp only [hT] at hb
    simp at hb
    exact hb
  · intro hv
    rw [htj] at hb
    by_cases hT : tj.type = TokenType.eVariable <;>
      simp [hT, hv, isUnsigned] at hb <;> exact hb

/-- Claim C4: at a bitwise-operator token whose neighbors both exist and
are number-or-variable tokens, the rule chain emits the signed-bitwise
warning Finding at that token exactly when at least one neighbor is not an
unsigned-typed variable; a number literal or an unresolved variable counts
as not unsigned (the rule fails closed toward reporting). -/
theorem signedBitwiseRule (m : TokenModel) (db : SymbolDatabase)
    (i p n : Nat) (t tp tn : Token) (up un : Bool) (fs : List Finding)
    (ht : getTok m i = some t)
    (htype : t.type = TokenType.eBitOp)
    (hp : prevIdx i = some p) (hn : nextIdx m i = some n)
    (htp : getTok m p = some tp) (htn : getTok m n = some tn)
    (hnvp : isNumberOrVariable tp = true)
    (hnvn : isNumberOrVariable tn = true)
    (hup : isUnsignedVariable m db (some p) = some up)
    (hun : isUnsignedVariable m db (some n) = some un)
    (hfs : tokenRuleFindings m db i t = some fs) :
    ((!up || !un) = true → fs = [signedBitOperFinding i]) ∧
    ((!up || !un) = false →
      fs.countP (fun f => f.id == "SignedBitoperError") = 0) ∧
    (signedBitOperFinding i).severity = Severity.warning ∧
    (signedBitOperFinding i).tokenIdx = i ∧
    (tp.type = TokenType.eNumber → up = false) ∧
    (variableOf db tp = none → up = false) ∧
    (tn.type = TokenType.eNumber → un = false) ∧
    (variableOf db tn = none → un = false) := by
  have hbit := isBitOp_value m db i p n t tp tn up un ht htype hp hn htp htn
    hnvp hnvn hup hun
  have hclosedp := isUnsignedVariable_failsClosed m db p tp up htp hup
  have hclosedn := isUnsignedVariable_failsClosed m db n tn un htn hun
  rw [tokenRuleFindings] at hfs
  rw [if_neg (by simp [htype]), if_neg (by simp [htype])] at hfs
  rw [hbit] at hfs
  simp only [Option.bind_eq_bind, Option.some_bind] at hfs
  refine ⟨?_, ?_, rfl, rfl, hclosedp.1, hclosedp.2, hclosedn.1, hclosedn.2⟩
  · intro hcond
    rw [hcond] at hfs
    simp at hfs
    exact hfs.symm
  · intro hcond
    rw [hcond] at hfs
    simp only [Bool.false_eq_true, ite_false] at hfs
    by_cases hm1 : matchCtypeCall m i
    · rw [if_pos hm1] at hfs
      rcases hsc : isSignedChar m db (some (i + 2)) with _ | sc
      · rw [hsc] at hfs
        exact absurd hfs (by simp)
      · rw [hsc] at hfs
        simp only [Option.bind_eq_bind, Option.some_bind, pure,
          Option.some.injEq] at hfs
        rw [← hfs]
        cases sc <;> simp [signedCharFinding]
    · rw [if_neg hm1] at hfs
      by_cases hm2 : matchStrs m i ["return", "errno", ";"]
      · rw [if_pos hm2] at hfs
        simp only [pure, Option.some.injEq] at hfs
        rw [← hfs]
        simp [returnErrnoFinding]
      · rw [if_neg hm2] at hfs
        by_cases hm3 : matchStrs m i ["for", "(", "double"] ||
            matchStrs m i ["for", "(", "float"]
        · rw [if_pos hm3] at hfs
          simp only [pure, Option.some.injEq] at hfs
          rw [← hfs]
          simp [floatLoopFinding]
        · rw [if_neg hm3] at hfs
          simp only [pure, Option.some.injEq] at hfs
          rw [← hfs]
          simp

/-- The expression with a literal and a signed int variable around the
bitwise and operator. -/
def mC4w : TokenModel :=
  ⟨[⟨"int", TokenType.eName, 0, false⟩,
    ⟨"x", TokenType.eVariable, 1, false⟩,
    ⟨";", TokenType.eOther, 0, false⟩,
    ⟨"1", TokenType.eNumber, 0, false⟩,
    ⟨"&", TokenType.eBitOp, 0, false⟩,
    ⟨"x", TokenType.eVariable, 1, false⟩,
    ⟨";", TokenType.eOther, 0, false⟩]⟩

def dbC4w : SymbolDatabase :=
  ⟨[], [], [(1, ⟨1, 0, 0, false, false, false⟩)]⟩

/-- Claim C4, witness: the literal-and-signed-variable bitwise expression
yields exactly the one signed-bitwise warning Finding at the operator. -/
theorem signedBitwiseRuleWitness :
    tokenRuleFindings mC4w dbC4w 4 ⟨"&", TokenType.eBitOp, 0, false⟩ =
      some [signedBitOperFinding 4] ∧
    (signedBitOperFinding 4).severity = Severity.warning := by
  have hfs0 : tokenRuleFindings mC4w dbC4w 4
      ⟨"&", TokenType.eBitOp, 0, false⟩ = some [signedBitOperFinding 4] := by
    rfl
  have h := signedBitwiseRule mC4w dbC4w 4 3 5
    ⟨"&", TokenType.eBitOp, 0, false⟩
    ⟨"1", TokenType.eNumber, 0, false⟩
    ⟨"x", TokenType.eVariable, 1, false⟩
    false false [signedBitOperFinding 4]
    rfl rfl rfl rfl rfl rfl rfl rfl (by decide) (by decide) hfs0
  exact ⟨hfs0, h.2.2.1⟩

/-! ## Claim C5: the ctype signed-char rule -/

/-- Claim C5: at a token opening the four-token ctype call shape — one of
the 16 ctype names, an opening parenthesis, a variable token, a closing
parenthesis — the rule chain emits one warning Finding exactly when the
argument variable is not unsigned. -/
theorem ctypeRule (m : TokenModel) (db : SymbolDatabase) (i : Nat)
    (t0 t1 t2 t3 : Token) (u : Bool)
    (ht0 : getTok m i = some t0)
    (hty0 : t0.type ≠ TokenType.eComparisonOp)
    (hty1 : t0.type ≠ TokenType.eArithmeticalOp)
    (hty2 : t0.type ≠ TokenType.eBitOp)
    (hname : ctypeFuncNames.contains t0.str = true)
    (ht1 : getTok m (i + 1) = some t1) (hs1 : t1.str = "(")
    (ht2 : getTok m (i + 2) = some t2)
    (htv : t2.type = TokenType.eVariable)
    (ht3 : getTok m (i + 3) = some t3) (hs3 : t3.str = ")")
    (hu : isUnsigned m (variableOf db t2) = some u) :
    tokenRuleFindings m db i t0 =
      some (if u then [] else [signedCharFinding (i + 2)]) ∧
    (signedCharFinding (i + 2)).severity = Severity.warning ∧
    (signedCharFinding (i + 2)).tokenIdx = i + 2 := by
  have hnext : nextIdx m i = some (i + 1) := by
    rw [nextIdx, if_pos (getTok_lt ht1)]
  have hbit : isBitOperatorOnNoUnsignedVariable m db (some i) = some false := by
    rw [isBitOperatorOnNoUnsignedVariable]
    rcases hp0 : prevIdx i with _ | p <;>
      simp [ht0, hnext, hty2]
  have hmem : t0.str ∈ ctypeFuncNames := by simpa using hname
  have hmatch : matchCtypeCall m i = true := by
    rw [matchCtypeCall]
    simp [ht0, ht1, ht2, ht3, hmem, hs1, htv, hs3]
  have hsc : isSignedChar m db (some (i + 2)) = some (!u) := by
    rw [isSignedChar]
    simp [ht2, htv, hu]
  refine ⟨?_, rfl, rfl⟩
  rw [tokenRuleFindings, if_neg hty0, if_neg hty1, hbit]
  simp only [Option.bind_eq_bind, Option.some_bind, Bool.false_eq_true,
    ite_false, hmatch, ite_true, hsc]
  cases u <;> simp [pure]

/-- isalpha applied to c declared plain char (not unsigned). -/
def mC5w : TokenModel :=
  ⟨[⟨"char", TokenType.eName, 0, false⟩,
    ⟨"c", TokenType.eVariable, 1, false⟩,
    ⟨";", TokenType.eOther, 0, false⟩,
    ⟨"isalpha", TokenType.eName, 0, false⟩,
    ⟨"(", TokenType.eBracket, 0, false⟩,
    ⟨"c", TokenType.eVariable, 1, false⟩,
    ⟨")", TokenType.eBracket, 0, false⟩]⟩

def dbC5w : SymbolDatabase :=
  ⟨[], [], [(1, ⟨1, 0, 0, false, false, false⟩)]⟩

/-- isalpha applied to c declared unsigned char: the terminal type token
carries the unsigned flag. -/
def mC5u : TokenModel :=
  ⟨[⟨"char", TokenType.eName, 0, true⟩,
    ⟨"c", TokenType.eVariable, 1, false⟩,
    ⟨";", TokenType.eOther, 0, false⟩,
    ⟨"isalpha", TokenType.eName, 0, false⟩,
    ⟨"(", TokenType.eBracket, 0, false⟩,
    ⟨"c", TokenType.eVariable, 1, false⟩,
    ⟨")", TokenType.eBracket, 0, false⟩]⟩

def dbC5u : SymbolDatabase :=
  ⟨[], [], [(1, ⟨1, 0, 0, false, false, false⟩)]⟩

/-- Claim C5, witness: isalpha of a signed char yields the one warning
Finding; isalpha of an unsigned char yields none. -/
theorem ctypeRuleWitness :
    tokenRuleFindings mC5w dbC5w 3 ⟨"isalpha", TokenType.eName, 0, false⟩ =
      some [signedCharFinding 5] ∧
    tokenRuleFindings mC5u dbC5u 3 ⟨"isalpha", TokenType.eName, 0, false⟩ =
      some [] := by
  have h1 := (ctypeRule mC5w dbC5w 3
    ⟨"isalpha", TokenType.eName, 0, false⟩
    ⟨"(", TokenType.eBracket, 0, false⟩
    ⟨"c", TokenType.eVariable, 1, false⟩
    ⟨")", TokenType.eBracket, 0, false⟩
    false rfl (by decide) (by decide) (by decide) (by decide)
    rfl rfl rfl rfl rfl rfl rfl).1
  have h2 := (ctypeRule mC5u dbC5u 3
    ⟨"isalpha", TokenType.eName, 0, false⟩
    ⟨"(", TokenType.eBracket, 0, false⟩
    ⟨"c", TokenType.eVariable, 1, false⟩
    ⟨")", TokenType.eBracket, 0, false⟩
    true rfl (by decide) (by decide) (by decide) (by decide)
    rfl rfl rfl rfl rfl rfl rfl).1
  exact ⟨h1.trans rfl, h2.trans rfl⟩

/-! ## Claim C6: the std-namespace rule -/

/-- The scopeList loop appends, to the sink, one Finding per namespace
scope named std, in scope-list order. -/
lemma stdNamespaceLoop_eq :
    ∀ (scopes : List Scope) (acc : List Finding),
    stdNamespaceLoop scopes acc =
      acc ++ (scopes.filter (fun s =>
        decide (s.type = ScopeType.eNamespace ∧ s.className = "std"))).map
        (fun s => modifyStdFinding s.classDefIdx) := by
  intro scopes
  induction scopes with
  | nil => intro acc; simp [stdNamespaceLoop]
  | cons s rest ih =>
    intro acc
    rw [stdNamespaceLoop]
    by_cases h : s.type = ScopeType.eNamespace ∧ s.className = "std"
    · rw [if_pos h, ih]
      simp [List.filter_cons, h]
    · rw [if_neg h, ih]
      simp [List.filter_cons, h]

/-- Claim C6: the scopeList pass emits exactly one warning Finding per
namespace scope named std — one list entry per qualifying scope, anchored
at the scope's classDef token, independent of the scope's contents — and
nothing for any other scope. -/
theorem stdNamespaceRule (db : SymbolDatabase) :
    stdNamespaceLoop db.scopeList [] =
      (db.scopeList.filter (fun s =>
        decide (s.type = ScopeType.eNamespace ∧ s.className = "std"))).map
        (fun s => modifyStdFinding s.classDefIdx) ∧
    ∀ f ∈ stdNamespaceLoop db.scopeList [],
      f.severity = Severity.warning ∧ f.id = "ModifyStdNamespaceError" := by
  constructor
  · rw [stdNamespaceLoop_eq]
    rfl
  · intro f hf
    rw [stdNamespaceLoop_eq] at hf
    simp only [List.nil_append, List.mem_map] at hf
    obtain ⟨s, _, hfs⟩ := hf
    rw [← hfs]
    exact ⟨rfl, rfl⟩

/-- An empty std namespace, a function scope named std and a non-std
namespace: only the first produces a Finding. -/
def dbC6w : SymbolDatabase :=
  ⟨[], [⟨ScopeType.eNamespace, "std", 0, 0, 2, none⟩,
        ⟨ScopeType.eFunction, "std", 0, 0, 3, none⟩,
        ⟨ScopeType.eNamespace, "foo", 0, 0, 4, none⟩], []⟩

/-- Claim C6, witness: exactly one Finding, for the std namespace scope. -/
theorem stdNamespaceRuleWitness :
    stdNamespaceLoop dbC6w.scopeList [] = [modifyStdFinding 2] := by
  exact (stdNamespaceRule dbC6w).1.trans (by decide)

/-! ## Claim C7: determinism of the checks -/

lemma scanIdxs_append (m : TokenModel) (db : SymbolDatabase) :
    ∀ (js : List Nat) (acc : List Finding),
    scanIdxs m db js acc = (scanIdxs m db js []).map (acc ++ ·) := by
  intro js
  induction js with
  | nil => intro acc; simp [scanIdxs]
  | cons j rest ih =>
    intro acc
    rw [scanIdxs, scanIdxs]
    cases hg : getTok m j with
    | none => simp
    | some t =>
      rcases hr : tokenRuleFindings m db j t with _ | gs
      · simp [hr]
      · simp only [hr, Option.bind_eq_bind, Option.some_bind]
        rw [ih (acc ++ gs), ih ([] ++ gs), Option.map_map]
        congr 1
        funext x
        simp

lemma runMiscScopeLoop_append (m : TokenModel) (db : SymbolDatabase) :
    ∀ (scopes : List Scope) (acc : List Finding),
    runMiscScopeLoop m db scopes acc =
      (runMiscScopeLoop m db scopes []).map (acc ++ ·) := by
  intro scopes
  induction scopes with
  | nil => intro acc; simp [runMiscScopeLoop]
  | cons s rest ih =>
    intro acc
    rw [runMiscScopeLoop, runMiscScopeLoop]
    rw [scanScope, scanScope, scanIdxs_append m db _ acc]
    rcases h0 : scanIdxs m db
        (scopeTokenIdxs m s.classStartIdx s.classEndIdx) [] with _ | a
    · simp
    · simp only [Option.map_some', Option.bind_eq_bind, Option.some_bind]
      rw [ih (acc ++ a), ih a, Option.map_map]
      congr 1
      funext x
      simp

/-- The engine's output does not depend on what is already in the sink:
running from any sink state appends the same finding sequence. -/
lemma runChecksFrom_append (m : TokenModel) (db : SymbolDatabase)
    (acc : List Finding) :
    runChecksFrom m db acc = (runChecks m db).map (acc ++ ·) := by
  rw [runChecks, runChecksFrom, runChecksFrom]
  rw [runMiscScopeLoop_append m db _ acc,
    runMiscScopeLoop_append m db _ []]
  rcases h0 : runMiscScopeLoop m db db.functionScopes [] with _ | a
  · simp
  · simp only [Option.map_some', Option.bind_eq_bind, Option.some_bind,
      Option.map_some, List.nil_append]
    rw [stdNamespaceLoop_eq, stdNamespaceLoop_eq]
    simp

/-- The argument loop of checkComplexParametersAsArgument with the
diagnostic sink passed explicitly: reportError appends to the sink. -/
def argLoopFrom (m : TokenModel) (func : Function) :
    List Variable → List Finding → Option (List Finding)
  | [], acc => some acc
  | v :: rest, acc =>
    if isRefOrPointer v then argLoopFrom m func rest acc
    else do
      let found ← scanTypeRange m v.typeStartIdx v.typeEndIdx
      argLoopFrom m func rest
        (acc ++ (if found then [complexCopyFinding func] else []))

/-- checkComplexParametersAsArgument with the sink passed explicitly. -/
def checkComplexParametersAsArgumentFrom (m : TokenModel) (scope : Scope)
    (acc : List Finding) : Option (List Finding) :=
  match scope.function with
  | none => some acc
  | some func =>
    if !func.hasBody then some acc
    else argLoopFrom m func func.argVars acc

/-- The function-scope loop of checkComplexParameters with the sink passed
explicitly. -/
def checkComplexScopeLoopFrom (m : TokenModel) :
    List Scope → List Finding → Option (List Finding)
  | [], acc => some acc
  | s :: rest, acc => do
    let acc2 ← checkComplexParametersAsArgumentFrom m s acc
    checkComplexScopeLoopFrom m rest acc2

/-- CheckComplexCopying::checkComplexParameters with the sink passed
explicitly. -/
def checkComplexParametersFrom (m : TokenModel) (db : SymbolDatabase)
    (acc : List Finding) : Option (List Finding) :=
  checkComplexScopeLoopFrom m db.functionScopes acc

lemma argLoopFrom_append (m : TokenModel) (func : Function) :
    ∀ (vars : List Variable) (acc : List Finding),
    argLoopFrom m func vars acc = (argLoop m func vars).map (acc ++ ·) := by
  intro vars
  induction vars with
  | nil => intro acc; simp [argLoopFrom, argLoop]
  | cons v rest ih =>
    intro acc
    rw [argLoopFrom, argLoop]
    by_cases hrp : isRefOrPointer v
    · rw [if_pos hrp, if_pos hrp]
      exact ih acc
    · rw [if_neg hrp, if_neg hrp]
      rcases hs : scanTypeRange m v.typeStartIdx v.typeEndIdx with _ | found
      · simp
      · simp only [Option.bind_eq_bind, Option.some_bind]
        rw [ih (acc ++ (if found then [complexCopyFinding func] else []))]
        rcases hr : argLoop m func rest with _ | fs <;>
          simp [List.append_assoc]

lemma checkComplexParametersAsArgumentFrom_append (m : TokenModel)
    (scope : Scope) (acc : List Finding) :
    checkComplexParametersAsArgumentFrom m scope acc =
      (checkComplexParametersAsArgument m scope).map (acc ++ ·) := by
  rw [checkComplexParametersAsArgumentFrom, checkComplexParametersAsArgument]
  cases hf : scope.function with
  | none => simp
  | some func =>
    by_cases hb : func.hasBody
    · simp [hb, argLoopFrom_append]
    · simp [hb]

lemma checkComplexScopeLoopFrom_append (m : TokenModel) :
    ∀ (scopes : List Scope) (acc : List Finding),
    checkComplexScopeLoopFrom m scopes acc =
      (checkComplexScopeLoop m scopes).map (acc ++ ·) := by
  intro scopes
  induction scopes with
  | nil => intro acc; simp [checkComplexScopeLoopFrom, checkComplexScopeLoop]
  | cons s rest ih =>
    intro acc
    rw [checkComplexScopeLoopFrom, checkComplexScopeLoop]
    rw [checkComplexParametersAsArgumentFrom_append]
    rcases ha : checkComplexParametersAsArgument m s with _ | a
    · simp
    · simp only [Option.map_some', Option.bind_eq_bind, Option.some_bind]
      rw [ih (acc ++ a)]
      rcases hb : checkComplexScopeLoop m rest with _ | b <;>
        simp [List.append_assoc]

/-- The complex-copying check's output does not depend on what is already
in the sink either. -/
lemma checkComplexParametersFrom_append (m : TokenModel)
    (db : SymbolDatabase) (acc : List Finding) :
    checkComplexParametersFrom m db acc =
      (checkComplexParameters m db).map (acc ++ ·) := by
  rw [checkComplexParametersFrom, checkComplexParameters]
  exact checkComplexScopeLoopFrom_append m db.functionScopes acc

/-- Claim C7: both rule checks — CheckMiscellaneous::runChecks and
CheckComplexCopying::checkComplexParameters — are deterministic functions
of the immutable token model and symbol facts: each appends, from any sink
state, the same ordered finding sequence, so a second run over the same
pair emits the identical sequence again. -/
theorem checksDeterministic (m : TokenModel) (db : SymbolDatabase)
    (r rc : List Finding) (h : runChecks m db = some r)
    (hc : checkComplexParameters m db = some rc) :
    runChecksFrom m db r = some (r ++ r) ∧
    (∀ acc, runChecksFrom m db acc = some (acc ++ r)) ∧
    checkComplexParametersFrom m db rc = some (rc ++ rc) ∧
    (∀ acc, checkComplexParametersFrom m db acc = some (acc ++ rc)) := by
  have hgen : ∀ acc, runChecksFrom m db acc = some (acc ++ r) := by
    intro acc
    rw [runChecksFrom_append, h]
    rfl
  have hcgen : ∀ acc, checkComplexParametersFrom m db acc =
      some (acc ++ rc) := by
    intro acc
    rw [checkComplexParametersFrom_append, hc]
    rfl
  exact ⟨hgen r, hgen, hcgen rc, hcgen⟩

/-- A by-value vector argument of foo, the function's body scope, and a
std namespace scope. -/
def mC7w : TokenModel :=
  ⟨[⟨"vector", TokenType.eName, 0, false⟩,
    ⟨"<", TokenType.eOther, 0, false⟩,
    ⟨"int", TokenType.eName, 0, false⟩,
    ⟨">", TokenType.eOther, 0, false⟩,
    ⟨"p", TokenType.eVariable, 1, false⟩,
    ⟨"\x7b", TokenType.eBracket, 0, false⟩,
    ⟨"\x7d", TokenType.eBracket, 0, false⟩]⟩

def vC7w : Variable := ⟨4, 0, 3, false, false, true⟩

def funcC7w : Function := ⟨"foo", 0, true, [vC7w]⟩

def dbC7w : SymbolDatabase :=
  ⟨[⟨ScopeType.eFunction, "", 5, 6, 0, some funcC7w⟩],
   [⟨ScopeType.eNamespace, "std", 0, 0, 2, none⟩],
   [(1, vC7w)]⟩

/-- Claim C7, witness: rerunning each check over its own first-run output
appends the identical sequence again — for the miscellaneous run and for
the complex-copying check. -/
theorem checksDeterministicWitness :
    runChecksFrom mC7w dbC7w [modifyStdFinding 2] =
      some [modifyStdFinding 2, modifyStdFinding 2] ∧
    checkComplexParametersFrom mC7w dbC7w [complexCopyFinding funcC7w] =
      some [complexCopyFinding funcC7w, complexCopyFinding funcC7w] := by
  have h := checksDeterministic mC7w dbC7w [modifyStdFinding 2]
    [complexCopyFinding funcC7w] rfl rfl
  exact ⟨h.1.trans rfl, h.2.2.1.trans rfl⟩

/-! ## Claim C8: the internal category gate -/

/-- Claim C8: with the internal category disabled, runSimplifiedChecks
invokes none of the five self-checks and emits nothing; with it enabled,
all five are invoked, their findings concatenated in declaration order. -/
theorem internalCategoryGate (settings : Settings) (c : InternalChecks) :
    (settings.isEnabled "internal" = false →
      runSimplifiedChecks settings c = []) ∧
    (settings.isEnabled "internal" = true →
      runSimplifiedChecks settings c =
        c.tokenMatchPatterns ++ c.tokenSimpleMatchPatterns ++
          c.missingPercentCharacter ++ c.unknownPattern ++
          c.redundantNextPrevious) := by
  constructor <;> intro h <;> simp [runSimplifiedChecks, h]

def cC8w : InternalChecks :=
  ⟨[⟨0, Severity.warning, "A", "a"⟩], [⟨1, Severity.warning, "B", "b"⟩],
   [], [], []⟩

/-- Claim C8, witness: disabled category yields nothing even with
nonempty self-check output; enabled category yields all of it. -/
theorem internalCategoryGateWitness :
    runSimplifiedChecks ⟨["performance"]⟩ cC8w = [] ∧
    runSimplifiedChecks ⟨["internal"]⟩ cC8w =
      [⟨0, Severity.warning, "A", "a"⟩, ⟨1, Severity.warning, "B", "b"⟩] := by
  refine ⟨(internalCategoryGate ⟨["performance"]⟩ cC8w).1 (by decide),
    ((internalCategoryGate ⟨["internal"]⟩ cC8w).2 (by decide)).trans
      (by decide)⟩

/-! ## Claim C9: classification looks only at the token before the name -/

/-- Claim C9: the float and time_t classifications of a resolved variable
depend on nothing but the text of the single token immediately preceding
the declaration name token — float exactly for the three float spellings,
time_t exactly for that spelling. -/
theorem floatTimeClassifyByPrevToken (m : TokenModel) (v : Variable)
    (t0 tp : Token)
    (h0 : v.nameTokenIdx ≠ 0)
    (ht : getTok m v.nameTokenIdx = some t0)
    (htp : getTok m (v.nameTokenIdx - 1) = some tp) :
    isFloat m (some v) = some (floatDefStrs.contains tp.str) ∧
    isTimeT m (some v) = some (tp.str == "time_t") := by
  constructor
  · rw [isFloat]
    simp only [ht]
    rw [prevIdx, if_neg h0]
    simp only [htp, Option.map_some']
  · rw [isTimeT]
    simp only [ht]
    rw [prevIdx, if_neg h0]
    simp only [htp, Option.map_some']

/-- The comma-separated declaration: double a , b — the second declarator's
name is preceded by the comma token. -/
def mC9w : TokenModel :=
  ⟨[⟨"double", TokenType.eName, 0, false⟩,
    ⟨"a", TokenType.eVariable, 1, false⟩,
    ⟨",", TokenType.eOther, 0, false⟩,
    ⟨"b", TokenType.eVariable, 2, false⟩,
    ⟨";", TokenType.eOther, 0, false⟩]⟩

def vC9a : Variable := ⟨1, 0, 0, false, false, false⟩

def vC9b : Variable := ⟨3, 0, 0, false, false, false⟩

/-- Claim C9, witness: a is classified float through the token double; b,
declared in the same double declaration, is classified by the comma before
its name and so is neither float nor time_t. -/
theorem floatTimeClassifyByPrevTokenWitness :
    isFloat mC9w (some vC9a) = some true ∧
    isFloat mC9w (some vC9b) = some false ∧
    isTimeT mC9w (some vC9b) = some false := by
  have ha := floatTimeClassifyByPrevToken mC9w vC9a
    ⟨"a", TokenType.eVariable, 1, false⟩
    ⟨"double", TokenType.eName, 0, false⟩ (by decide) rfl rfl
  have hb := floatTimeClassifyByPrevToken mC9w vC9b
    ⟨"b", TokenType.eVariable, 2, false⟩
    ⟨",", TokenType.eOther, 0, false⟩ (by decide) rfl rfl
  exact ⟨ha.1.trans (by decide), hb.1.trans (by decide),
    hb.2.trans (by decide)⟩

/-! ## Claim C10: std-namespace findings come last -/

/-- No finding of the per-token rule chain carries the std-namespace
diagnostic id. -/
lemma tokenRuleFindings_ids (m : TokenModel) (db : SymbolDatabase)
    (i : Nat) (t : Token) (fs : List Finding)
    (h : tokenRuleFindings m db i t = some fs) :
    ∀ f ∈ fs, f.id ≠ "ModifyStdNamespaceError" := by
  rw [tokenRuleFindings] at h
  split at h
  · split at h
    · cases h
      simp
    · rcases hb : isFloatComparison m db i with _ | b <;> rw [hb] at h
      · simp at h
      · simp only [Option.bind_eq_bind, Option.some_bind, pure,
          Option.some.injEq] at h
        rw [← h]
        cases b <;> simp [floatEqualsFinding]
  · split at h
    · rcases hb : isTimeTVariable m db (nextIdx m i) with _ | bn <;>
        rw [hb] at h
      · simp at h
      · simp only [Option.bind_eq_bind, Option.some_bind] at h
        cases bn
        · simp only [Bool.false_eq_true, ite_false] at h
          rcases hb2 : isTimeTVariable m db (prevIdx i) with _ | bp <;>
            rw [hb2] at h
          · simp at h
          · simp only [Option.bind_eq_bind, Option.some_bind, pure,
              Option.some.injEq] at h
            rw [← h]
            cases bp <;> simp [timetOperFinding]
        · simp only [ite_true, pure, Option.some.injEq] at h
          rw [← h]
          simp [timetOperFinding]
    · rcases hbb : isBitOperatorOnNoUnsignedVariable m db (some i)
          with _ | bb <;> rw [hbb] at h
      · simp at h
      · simp only [Option.bind_eq_bind, Option.some_bind] at h
        cases bb
        · simp only [Bool.false_eq_true, ite_false] at h
          by_cases hm1 : matchCtypeCall m i
          · rw [if_pos hm1] at h
            rcases hsc : isSignedChar m db (some (i + 2)) with _ | sc <;>
              rw [hsc] at h
            · simp at h
            · simp only [Option.bind_eq_bind, Option.some_bind, pure,
                Option.some.injEq] at h
              rw [← h]
              cases sc <;> simp [signedCharFinding]
          · rw [if_neg hm1] at h
            by_cases hm2 : matchStrs m i ["return", "errno", ";"]
            · rw [if_pos hm2] at h
              simp only [pure, Option.some.injEq] at h
              rw [← h]
              simp [returnErrnoFinding]
            · rw [if_neg hm2] at h
              by_cases hm3 : matchStrs m i ["for", "(", "double"] ||
                  matchStrs m i ["for", "(", "float"]
              · rw [if_pos hm3] at h
                simp only [pure, Option.some.injEq] at h
                rw [← h]
                simp [floatLoopFinding]
              · rw [if_neg hm3] at h
                simp only [pure, Option.some.injEq] at h
                rw [← h]
                simp
        · simp only [ite_true, pure, Option.some.injEq] at h
          rw [← h]
          simp [signedBitOperFinding]

/-- The token loop only accumulates findings free of the std-namespace
id. -/
lemma scanIdxs_ids (m : TokenModel) (db : SymbolDatabase) :
    ∀ (js : List Nat) (acc fs : List Finding),
    scanIdxs m db js acc = some fs →
    (∀ f ∈ acc, f.id ≠ "ModifyStdNamespaceError") →
    ∀ f ∈ fs, f.id ≠ "ModifyStdNamespaceError" := by
  intro js
  induction js with
  | nil =>
    intro acc fs h hacc
    rw [scanIdxs] at h
    cases h
    exact hacc
  | cons j rest ih =>
    intro acc fs h hacc
    rw [scanIdxs] at h
    cases hg : getTok m j with
    | none =>
      simp only [hg] at h
      cases h
      exact hacc
    | some t =>
      simp only [hg] at h
      rcases hr : tokenRuleFindings m db j t with _ | gs <;> rw [hr] at h
      · simp at h
      · simp only [Option.bind_eq_bind, Option.some_bind] at h
        refine ih (acc ++ gs) fs h ?_
        intro f hf
        rcases List.mem_append.mp hf with h1 | h2
        · exact hacc f h1
        · exact tokenRuleFindings_ids m db j t gs hr f h2

lemma runMiscScopeLoop_ids (m : TokenModel) (db : SymbolDatabase) :
    ∀ (scopes : List Scope) (acc fs : List Finding),
    runMiscScopeLoop m db scopes acc = some fs →
    (∀ f ∈ acc, f.id ≠ "ModifyStdNamespaceError") →
    ∀ f ∈ fs, f.id ≠ "ModifyStdNamespaceError" := by
  intro scopes
  induction scopes with
  | nil =>
    intro acc fs h hacc
    rw [runMiscScopeLoop] at h
    cases h
    exact hacc
  | cons s rest ih =>
    intro acc fs h hacc
    rw [runMiscScopeLoop] at h
    rcases h0 : scanScope m db s acc with _ | a <;> rw [h0] at h
    · simp at h
    · simp only [Option.bind_eq_bind, Option.some_bind] at h
      rw [scanScope] at h0
      exact ih a fs h (scanIdxs_ids m db _ acc a h0 hacc)

/-- Claim C10: a completed run's finding sequence is the token-loop
findings followed by the std-namespace findings; no std-namespace Finding
ever precedes a token-rule Finding. -/
theorem stdFindingsLast (m : TokenModel) (db : SymbolDatabase)
    (fs : List Finding) (h : runChecks m db = some fs) :
    ∃ a, runMiscScopeLoop m db db.functionScopes [] = some a ∧
      fs = a ++ stdNamespaceLoop db.scopeList [] ∧
      (∀ f ∈ a, f.id ≠ "ModifyStdNamespaceError") ∧
      (∀ f ∈ stdNamespaceLoop db.scopeList [],
        f.id = "ModifyStdNamespaceError") := by
  rw [runChecks, runChecksFrom] at h
  rcases h0 : runMiscScopeLoop m db db.functionScopes [] with _ | a <;>
    rw [h0] at h
  · simp at h
  · simp only [Option.bind_eq_bind, Option.some_bind, pure,
      Option.some.injEq] at h
    refine ⟨a, rfl, ?_, ?_, ?_⟩
    · rw [← h, stdNamespaceLoop_eq, stdNamespaceLoop_eq]
      simp
    · exact runMiscScopeLoop_ids m db db.functionScopes [] a h0 (by simp)
    · intro f hf
      rw [stdNamespaceLoop_eq] at hf
      simp only [List.nil_append, List.mem_map] at hf
      obtain ⟨s, _, hfs⟩ := hf
      rw [← hfs]
      rfl

/-- A signed bitwise expression inside a function scope plus a std
namespace scope elsewhere. -/
def mC10w : TokenModel :=
  ⟨[⟨"int", TokenType.eName, 0, false⟩,
    ⟨"x", TokenType.eVariable, 1, false⟩,
    ⟨";", TokenType.eOther, 0, false⟩,
    ⟨"1", TokenType.eNumber, 0, false⟩,
    ⟨"&", TokenType.eBitOp, 0, false⟩,
    ⟨"x", TokenType.eVariable, 1, false⟩,
    ⟨";", TokenType.eOther, 0, false⟩]⟩

def dbC10w : SymbolDatabase :=
  ⟨[⟨ScopeType.eFunction, "", 3, 6, 0, none⟩],
   [⟨ScopeType.eNamespace, "std", 0, 0, 1, none⟩],
   [(1, ⟨1, 0, 0, false, false, false⟩)]⟩

/-- Claim C10, witness: the run yields the token-loop finding followed by
the std-namespace finding, in that order. -/
theorem stdFindingsLastWitness :
    ∃ a, runMiscScopeLoop mC10w dbC10w dbC10w.functionScopes [] = some a ∧
      [signedBitOperFinding 4, modifyStdFinding 1] =
        a ++ stdNamespaceLoop dbC10w.scopeList [] ∧
      (∀ f ∈ a, f.id ≠ "ModifyStdNamespaceError") ∧
      (∀ f ∈ stdNamespaceLoop dbC10w.scopeList [],
        f.id = "ModifyStdNamespaceError") :=
  stdFindingsLast mC10w dbC10w [signedBitOperFinding 4, modifyStdFinding 1]
    (by rfl)

end Seccheck
